import Mathlib

/- Verification development for the NDID federated-identity node core.

The relevant source is shallowly embedded here:
  * the IdP message-queue / block-height reconciliation loop
    (`handleMessageFromQueue`, `handleTendermintNewBlockHeaderEvent`,
    `requestChallenge`) as a state machine over an explicit `Db` record,
  * response creation (`createIdpResponse`, `sendPrivateProofToRP`) as a
    function returning an ordered effect list,
  * the identity onboarding engine (`createNewIdentity`, `checkAssociated`,
    `updateIal`),
  * the RP-side `createRequest` flow.

Ledger heights are JS numbers, modelled as `Int`; key-value stores are
`String`-keyed partial maps; external collaborators (ledger queries, the
crypto layer, transport addresses) are supplied as environment records of
opaque functions.  Side effects (ledger transactions, message-queue sends,
store writes/deletes, client callbacks) are recorded in explicit logs so
that ordering and absence claims can be stated. -/

/-! ## Store primitives (db.set* / db.remove* on a namespaced key-value store) -/

def setKey {α : Type} (f : String → Option α) (k : String) (v : α) :
    String → Option α :=
  fun k' => if k' = k then some v else f k'

def delKey {α : Type} (f : String → Option α) (k : String) :
    String → Option α :=
  fun k' => if k' = k then none else f k'

/-! ## Data model of the IdP message-queue subsystem -/

/-- A payload delivered by the message-queue transport, with exactly the
fields `handleMessageFromQueue` reads: `challenge`, `type`, `accessor_id`,
`request_id`, `height`, `rp_id`, `idp_id`, `public_proof`,
`privateProofValue`, `padding`.  Optional fields model absent JS object
properties (`message.challenge` is an array when present, and arrays are
always truthy). -/
structure IdpMessage where
  request_id : String
  height : Int := 0
  challenge : Option (List String) := none
  msgType : Option String := none
  accessor_id : Option String := none
  idp_id : String := ""
  rp_id : String := ""
  public_proof : Option (List String) := none
  privateProofValue : Option String := none
  padding : Option String := none
deriving DecidableEq, Repr

/-- The record stored under `requestReceivedFromMQ[request_id]`: the raw
message plus the fields later merged into it (`k` by `requestChallenge`,
`challenge` by the challenge branch of `handleMessageFromQueue`). -/
structure MqRequest where
  msg : IdpMessage
  k : Option (List String) := none
  challenge : Option (List String) := none
deriving DecidableEq, Repr

/-- One element of `request.privateProofObjectList` accumulated by the
copy-pasted RP block inside `handleMessageFromQueue`. -/
structure PrivateProofEntry where
  idp_id : String
  privateProofValue : Option String
  accessor_id : Option String
  padding : Option String
deriving DecidableEq, Repr

/-- A dispatch of a message to one of the protocol handlers.  `response` is
the challenge-branch trigger of `createIdpResponse`; the other three are the
handlers reached from the height-gated dispatch (onboard-consent processing,
`common.handleChallengeRequest`, incoming-request notification). -/
inductive Dispatch where
  | response (request_id : String)
  | onboard (request_id : String) (accessor_id : String)
  | challengeReq (request_id : String) (idp_id : String)
  | incoming (request_id : String)
deriving DecidableEq, Repr

def Dispatch.requestId : Dispatch → String
  | .response rid => rid
  | .onboard rid _ => rid
  | .challengeReq rid _ => rid
  | .incoming rid => rid

/-- Whether a dispatch goes to one of the three height-gated protocol
handlers (everything except the challenge-branch response trigger). -/
def Dispatch.isProtocol : Dispatch → Bool
  | .response _ => false
  | .onboard _ _ => true
  | .challengeReq _ _ => true
  | .incoming _ => true

/-- The store namespaces touched by the reconciliation loop. -/
structure Db where
  requestReceivedFromMQ : String → Option MqRequest
  requestToProcess : String → Option IdpMessage
  expectedInBlock : List (Int × String)
  rpIdFromRequestId : String → Option String
  publicProofFromMQ : String → Option (List String)
  requestData : String → Option (List PrivateProofEntry)

/-- Node state: the store, the tendermint module's latest known block
height, and the log of dispatches to protocol handlers. -/
structure IdpState where
  db : Db
  latestBlockHeight : Int
  log : List Dispatch

def emptyDb : Db :=
  { requestReceivedFromMQ := fun _ => none
    requestToProcess := fun _ => none
    expectedInBlock := []
    rpIdFromRequestId := fun _ => none
    publicProofFromMQ := fun _ => none
    requestData := fun _ => none }

def initState (h : Int) : IdpState :=
  { db := emptyDb, latestBlockHeight := h, log := [] }

/-- Which handler a stored/incoming message is dispatched to
(`message.accessor_id` present → onboard response; `message.type ===
'request_challenge'` → challenge-request handling; otherwise consent
request → incoming-request notification). -/
def dispatchMessage (m : IdpMessage) : Dispatch :=
  match m.accessor_id with
  | some aid => .onboard m.request_id aid
  | none =>
    if m.msgType = some "request_challenge" then
      .challengeReq m.request_id m.idp_id
    else
      .incoming m.request_id

/-- The unconditional stores at the top of the non-challenge path:
`setRequestReceivedFromMQ` (skipped for `request_challenge` messages, to
avoid overwriting the saved `k`) and `setRequestToProcessReceivedFromMQ`. -/
def receiveStores (db : Db) (m : IdpMessage) : Db :=
  let db1 :=
    if m.msgType = some "request_challenge" then db
    else
      { db with
        requestReceivedFromMQ :=
          setKey db.requestReceivedFromMQ m.request_id { msg := m } }
  { db1 with requestToProcess := setKey db1.requestToProcess m.request_id m }

/-- The stores performed when a message is buffered (latest height ≤ tagged
height): `addRequestIdExpectedInBlock`, `setRPIdFromRequestId`, the
`request_challenge` public-proof stash, and the RP copy-paste block that
extends `privateProofObjectList` inside an existing `requestData` entry. -/
def bufferStores (db : Db) (m : IdpMessage) : Db :=
  let db3 :=
    { db with
      expectedInBlock := db.expectedInBlock ++ [(m.height, m.request_id)],
      rpIdFromRequestId := setKey db.rpIdFromRequestId m.request_id m.rp_id }
  let responseId := m.request_id ++ ":" ++ m.idp_id
  let db4 :=
    if m.msgType = some "request_challenge" then
      { db3 with
        publicProofFromMQ :=
          setKey db3.publicProofFromMQ responseId (m.public_proof.getD []) }
    else db3
  let entry : PrivateProofEntry :=
    { idp_id := m.idp_id, privateProofValue := m.privateProofValue,
      accessor_id := m.accessor_id, padding := m.padding }
  match m.accessor_id, db4.requestData m.request_id with
  | some _, some entries =>
    { db4 with
      requestData := setKey db4.requestData m.request_id (entries ++ [entry]) }
  | _, _ => db4

/-- `handleMessageFromQueue`.  A message carrying a `challenge` is processed
immediately (challenge stored against the request, `createIdpResponse`
triggered) with no height check; when the stored request record is absent
the JS code throws a TypeError inside the detached async handler, which is
logged and dropped, so the state is unchanged.  Any other message is stored,
then either buffered (latest height ≤ tagged height) or dispatched at once. -/
def handleMessageFromQueue (s : IdpState) (m : IdpMessage) : IdpState :=
  match m.challenge with
  | some c =>
    match s.db.requestReceivedFromMQ m.request_id with
    | none => s
    | some req =>
      let store' :=
        setKey s.db.requestReceivedFromMQ m.request_id
          { req with challenge := some c }
      { s with
        db := { s.db with requestReceivedFromMQ := store' },
        log := s.log ++ [Dispatch.response m.request_id] }
  | none =>
    let db2 := receiveStores s.db m
    if s.latestBlockHeight ≤ m.height then
      { s with db := bufferStores db2 m }
    else
      { s with
        db := { db2 with
                requestToProcess := delKey db2.requestToProcess m.request_id },
        log := s.log ++ [dispatchMessage m] }

/-- The replay-window lower bound computed by
`handleTendermintNewBlockHeaderEvent` from the event height and
`missingBlockCount` (null when no prior header was ever seen). -/
def fromHeightOf (height : Int) (missing : Option Int) : Int :=
  match missing with
  | none => 1
  | some m => if m = 0 then height - 1 else height - m

/-- Whether a buffered `(height, request_id)` entry falls inside the replay
window `[fromH, toH]`. -/
def inWindow (fromH toH : Int) (p : Int × String) : Bool :=
  decide (fromH ≤ p.1) && decide (p.1 ≤ toH)

/-- `getRequestIdsExpectedInBlock fromHeight toHeight`. -/
def windowRequestIds (db : Db) (height : Int) (missing : Option Int) :
    List String :=
  (db.expectedInBlock.filter
      (inWindow (fromHeightOf height missing) (height - 1))).map (·.2)

/-- The replay body: for each request id in the window, fetch the stored
message from `requestToProcessReceivedFromMQ`, remove it, and dispatch it.
A missing entry is skipped. -/
def processExpected : Db → List Dispatch → List String → Db × List Dispatch
  | db, log, [] => (db, log)
  | db, log, rid :: rest =>
    match db.requestToProcess rid with
    | none => processExpected db log rest
    | some m =>
      processExpected
        { db with requestToProcess := delKey db.requestToProcess rid }
        (log ++ [dispatchMessage m]) rest

/-- `handleTendermintNewBlockHeaderEvent`: compute the replay window,
dispatch every buffered message whose tagged height falls inside it, then
purge the window's expected-in-block entries
(`removeRequestIdsExpectedInBlock`).  The tendermint module (outside this
file) updates `latestBlockHeight` to the event's height. -/
def handleTendermintNewBlockHeaderEvent (s : IdpState) (height : Int)
    (missing : Option Int) : IdpState :=
  let pr := processExpected s.db s.log (windowRequestIds s.db height missing)
  let remaining :=
    pr.1.expectedInBlock.filter
      (fun p => ! inWindow (fromHeightOf height missing) (height - 1) p)
  { db := { pr.1 with expectedInBlock := remaining },
    latestBlockHeight := height,
    log := pr.2 }

/-- An external event consumed by the node: a transport delivery or a new
block header (with its missing-header count). -/
inductive Ev where
  | msg (m : IdpMessage)
  | block (height : Int) (missing : Option Int)

def stepEv (s : IdpState) : Ev → IdpState
  | .msg m => handleMessageFromQueue s m
  | .block h miss => handleTendermintNewBlockHeaderEvent s h miss

def runEvents (s : IdpState) (evs : List Ev) : IdpState :=
  evs.foldl stepEv s

/-- Number of dispatches of request id `rid` to one of the three
height-gated protocol handlers recorded in a log. -/
def protocolDispatchCount (rid : String) (log : List Dispatch) : Nat :=
  log.countP (fun d => d.isProtocol && d.requestId == rid)

/-- Number of occurrences of a request id in a list. -/
def occurs (rid : String) (l : List String) : Nat :=
  l.countP (fun r => r == rid)

/-- Every message stored in `requestToProcessReceivedFromMQ` sits under its
own `request_id` (true of every write the source performs). -/
def KeyInv (f : String → Option IdpMessage) : Prop :=
  ∀ rid m, f rid = some m → m.request_id = rid

/-! ## requestChallenge (IdP declares its public proofs) -/

/-- Environment for `requestChallenge`: the accessor public key lookup, the
two `utils.generatePublicProof` draws (each returning a blinding factor `k`
and the matching public commitment), the height at which the
`declareIdentityProof` transaction lands, and this node's id. -/
structure ChalEnv where
  getAccessorKey : String → Option String
  gen1 : String → String × String
  gen2 : String → String × String
  declareHeight : Int
  nodeId : String

/-- `requestChallenge request_id accessor_id`: fetch the accessor public
key, draw `(k1, publicProof1)` and `(k2, publicProof2)`, merge
`k := [k1, k2]` into the stored request record, declare the public proofs on
the ledger and send the `request_challenge` transport message (carrying
`public_proof`, `request_id`, `idp_id`, `type`, `height`) to the RP.
Returns the updated store and the message sent; `none` models the thrown
error when the key or the stored request is missing. -/
def requestChallenge (env : ChalEnv) (db : Db) (rid accessor_id : String) :
    Option (Db × IdpMessage) :=
  match env.getAccessorKey accessor_id with
  | none => none
  | some pk =>
    match db.requestReceivedFromMQ rid with
    | none => none
    | some req =>
      let k1 := (env.gen1 pk).1
      let p1 := (env.gen1 pk).2
      let k2 := (env.gen2 pk).1
      let p2 := (env.gen2 pk).2
      let store' :=
        setKey db.requestReceivedFromMQ rid { req with k := some [k1, k2] }
      let outMsg : IdpMessage :=
        { request_id := rid, height := env.declareHeight,
          msgType := some "request_challenge", idp_id := env.nodeId,
          public_proof := some [p1, p2] }
      some ({ db with requestReceivedFromMQ := store' }, outMsg)

/-! ## createIdpResponse / sendPrivateProofToRP -/

/-- The slice of a ledger request record read by `createIdpResponse`. -/
structure LedgerRequest where
  mode : Int
deriving DecidableEq, Repr

/-- The client-supplied response data (`requestChallengeAndCreateResponse`
input, staged in `responseFromRequestId`). -/
structure ResponseData where
  request_id : String
  aal : String
  ial : String
  status : String
  signature : String
  accessor_id : Option String := none
  secret : Option String := none
deriving DecidableEq, Repr

/-- Output of one `utils.generateIdentityProof` round. -/
structure GenOut where
  blockchainProof : String
  privateProofValue : String
  padding : String
deriving DecidableEq, Repr

/-- The private-proof object sent to the RP over transport (never to the
ledger): the raw private proof values, the accessor id and the padding. -/
structure PrivateProofPayload where
  privateProofValueArray : List String
  accessor_id : String
  padding : Option String
deriving DecidableEq, Repr

/-- The `CreateIdpResponse` ledger transaction body.  For mode 3 it carries
`identity_proof` (the JSON of the blockchain-proof array) and
`private_proof_hash`; for mode 1 both fields are absent. -/
structure IdpResponseTx where
  request_id : String
  aal : String
  ial : String
  status : String
  signature : String
  identity_proof : Option String
  private_proof_hash : Option String
deriving DecidableEq, Repr

/-- Side effects of the response path, in program order. -/
inductive RespEffect where
  | removeRequestReceivedFromMQ (rid : String)
  | removeResponseFromRequestId (rid : String)
  | submitResponseTx (tx : Option IdpResponseTx)
  | mqSendPrivateProof (rid : String) (payload : Option PrivateProofPayload)
      (height : Int)
  | removeRPId (rid : String)
deriving DecidableEq, Repr

/-- Client-visible failures of `createIdpResponse`.  `missingMqData` models
the JS TypeError thrown when the buffered challenge-session record (or its
`challenge` field) is absent. -/
inductive RespError where
  | requestNotFound
  | accessorIdNeeded
  | secretNeeded
  | accessorPublicKeyNotFound
  | missingMqData
deriving DecidableEq, Repr

/-- Environment for the response path: ledger queries, the stored
challenge-session record, the paired proof-generation function `g`, the
crypto-layer hash and JSON serialisation, the height at which the response
transaction lands, and the stored RP id for the request. -/
structure RespEnv where
  getRequest : String → Option LedgerRequest
  getAccessorKey : String → Option String
  requestFromMq : String → Option MqRequest
  gen : String → String → Option String → String → GenOut
  hash : String → String
  jsonList : List String → String
  respondHeight : Int
  rpId : String → Option String

/-- The proof-generation loop of `createIdpResponse`: one
`generateIdentityProof` call per received challenge, pairing
`challenge[i]` with `k[i]` (an out-of-range `k` index is the absent
JS array element). -/
def proofRounds (gen : String → String → Option String → String → GenOut)
    (pk secret : String) : List String → List String → List GenOut
  | [], _ => []
  | c :: cs, ks => gen pk c ks.head? secret :: proofRounds gen pk secret cs ks.tail

/-- The mode-3 `dataToBlockchain` object: request fields, the JSON-encoded
blockchain-proof array, and the hash of the JSON-encoded private-proof-value
array.  The private proof values themselves appear in no field. -/
def mode3DataToBlockchain (hash : String → String)
    (jsonList : List String → String) (d : ResponseData)
    (blockchainProofArray privateProofValueArray : List String) :
    IdpResponseTx :=
  { request_id := d.request_id, aal := d.aal, ial := d.ial,
    status := d.status, signature := d.signature,
    identity_proof := some (jsonList blockchainProofArray),
    private_proof_hash := some (hash (jsonList privateProofValueArray)) }

/-- `sendPrivateProofToRP` (called without await; failures are dropped):
look up the RP id stored for the request, send the private-proof payload to
the RP's message-queue address tagged with the response height, then remove
the stored RP id.  A missing RP id aborts the detached send silently. -/
def sendPrivateProofToRP (env : RespEnv) (rid : String)
    (payload : Option PrivateProofPayload) (height : Int) : List RespEffect :=
  match env.rpId rid with
  | none => []
  | some _ => [.mqSendPrivateProof rid payload height, .removeRPId rid]

/-- `createIdpResponse`: validate the request and (for mode 3) the accessor
id, secret and accessor public key; for mode 3 run the proof loop over the
received challenges and build the mode-3 transaction plus the private-proof
payload; then remove the buffered challenge-session record and the staged
response data, submit the response transaction, and send the private proof
to the RP. -/
def createIdpResponse (env : RespEnv) (d : ResponseData) :
    List RespEffect × Except RespError Unit :=
  match env.getRequest d.request_id with
  | none => ([], .error .requestNotFound)
  | some request =>
    if request.mode = 3 then
      match d.accessor_id with
      | none => ([], .error .accessorIdNeeded)
      | some aid =>
        match d.secret with
        | none => ([], .error .secretNeeded)
        | some secret =>
          match env.getAccessorKey aid with
          | none => ([], .error .accessorPublicKeyNotFound)
          | some pk =>
            match env.requestFromMq d.request_id with
            | none => ([], .error .missingMqData)
            | some stored =>
              match stored.challenge with
              | none => ([], .error .missingMqData)
              | some cs =>
                let rounds := proofRounds env.gen pk secret cs (stored.k.getD [])
                let privArr := rounds.map (·.privateProofValue)
                let bArr := rounds.map (·.blockchainProof)
                let payload : PrivateProofPayload :=
                  { privateProofValueArray := privArr, accessor_id := aid,
                    padding := (rounds.getLast?).map (·.padding) }
                let tx := mode3DataToBlockchain env.hash env.jsonList d bArr privArr
                ([.removeRequestReceivedFromMQ d.request_id,
                  .removeResponseFromRequestId d.request_id,
                  .submitResponseTx (some tx)]
                  ++ sendPrivateProofToRP env d.request_id (some payload)
                      env.respondHeight,
                 .ok ())
    else
      let txOpt : Option IdpResponseTx :=
        if request.mode = 1 then
          some { request_id := d.request_id, aal := d.aal, ial := d.ial,
                 status := d.status, signature := d.signature,
                 identity_proof := none, private_proof_hash := none }
        else none
      ([.removeRequestReceivedFromMQ d.request_id,
        .removeResponseFromRequestId d.request_id,
        .submitResponseTx txOpt]
        ++ sendPrivateProofToRP env d.request_id none env.respondHeight,
       .ok ())

/-- Whether an effect removes the challenge-session record or the staged
response data. -/
def RespEffect.isSessionRemoval : RespEffect → Bool
  | .removeRequestReceivedFromMQ _ => true
  | .removeResponseFromRequestId _ => true
  | _ => false

/-- Whether an effect submits the response transaction to the ledger. -/
def RespEffect.isSubmit : RespEffect → Bool
  | .submitResponseTx _ => true
  | _ => false

/-! ## Identity onboarding engine (core/identity.js) -/

/-- Client-visible errors of the onboarding engine. -/
inductive IdError where
  | invalidNamespace
  | identityAlreadyCreated
  | maximumIalExceeded
  | signWithAccessorKeyUrlNotSet
  | identityNotFound
deriving DecidableEq, Repr

/-- Ledger transactions, store writes and callbacks performed by the
onboarding engine, in program order. -/
inductive IdEffect where
  | createRequestTx (request_id : String) (min_idp : Nat)
  | setOnboardData (reference_id request_id accessor_id : String)
  | setIdentityFromRequestId (request_id : String)
  | createIdentityTx (accessor_id accessor_group_id : String)
  | registerMqDestinationTx (hash_id : String) (ial : Rat)
  | notifyCreateIdentityResult (request_id : String) (success : Bool)
      (secret : String)
  | removeOnboardData (reference_id : String)
  | updateIalTx (hash_id : String) (ial : Rat)
deriving DecidableEq, Repr

/-- Environment of the onboarding engine: ledger queries (namespace list,
IdP nodes associated with the subject, this node's info with `max_ial`,
existing-identity check), the onboard-correlation store, the accessor-sign
callback plus padding extraction, the random draws, and the `request_id`
produced by `common.createRequest`. -/
structure IdentityEnv where
  namespaceList : List String
  idpNodeIds : String → String → List String
  nodeId : String
  max_ial : Rat
  existingIdentity : String → Bool
  onboardData : String → Option (String × String)
  accessorSignUrlSet : Bool
  accessorSignResult : String
  extractPadding : String → String → String
  randomId : String
  randomGroupId : String
  newRequestId : String
  hash : String → String

/-- `checkAssociated`: query the IdP nodes registered for the subject
(`min_aal` 1, `min_ial` 1.1) and test whether this node's id is among
them. -/
def checkAssociated (env : IdentityEnv) (ns identifier : String) : Bool :=
  (env.idpNodeIds ns identifier).contains env.nodeId

/-- Input of `createNewIdentity` (also used by
`addAccessorMethodForAssociatedIdp`, which sets `addAccessor`). -/
structure CreateIdentityInput where
  ns : String
  identifier : String
  reference_id : String
  accessor_type : String
  accessor_public_key : String
  accessor_id : Option String := none
  addAccessor : Bool := false
  ial : Rat
deriving DecidableEq, Repr

/-- The value returned to the client by `createNewIdentity`. -/
structure CreateIdentityResult where
  request_id : String
  exist : Bool
  accessor_id : String
deriving DecidableEq, Repr

/-- `createNewIdentity`: validate namespace, association, and `ial ≤
max_ial`; on a recorded onboard correlation for `reference_id`, return the
recorded `{request_id, accessor_id}` unchanged with no further effects.
Otherwise sign over the sid hash with the accessor key, build the onboarding
`secret`, create the onboarding consent request on the ledger (`min_idp` 1
when the identity already exists elsewhere, 0 for a brand-new identity),
record the correlation, and either stage the accessor-addition data
(existing identity) or register the identity and message-queue destination
and deliver the result callback (new identity; the source runs this in a
detached continuation, modelled here as completing). -/
def createNewIdentity (env : IdentityEnv) (input : CreateIdentityInput) :
    List IdEffect × Except IdError CreateIdentityResult :=
  if ! env.namespaceList.contains input.ns then
    ([], .error .invalidNamespace)
  else
    let associated := checkAssociated env input.ns input.identifier
    if ! input.addAccessor && associated then
      ([], .error .identityAlreadyCreated)
    else if input.ial > env.max_ial then
      ([], .error .maximumIalExceeded)
    else
      let sid := input.ns ++ ":" ++ input.identifier
      let hash_id := env.hash sid
      let exist := env.existingIdentity hash_id
      match env.onboardData input.reference_id with
      | some (request_id, accessor_id) =>
        ([], .ok { request_id := request_id, exist := exist,
                   accessor_id := accessor_id })
      | none =>
        let accessor_id := input.accessor_id.getD env.randomId
        if ! env.accessorSignUrlSet then
          ([], .error .signWithAccessorKeyUrlNotSet)
        else
          let encryptedHash := env.accessorSignResult
          let padding := env.extractPadding encryptedHash input.accessor_public_key
          let secret := padding ++ "|" ++ encryptedHash
          let request_id := env.newRequestId
          let effs0 :=
            [IdEffect.createRequestTx request_id (if exist then 1 else 0),
             IdEffect.setOnboardData input.reference_id request_id accessor_id]
          if exist then
            (effs0 ++ [.setIdentityFromRequestId request_id],
             .ok { request_id := request_id, exist := exist,
                   accessor_id := accessor_id })
          else
            (effs0 ++
               [.createIdentityTx accessor_id env.randomGroupId,
                .registerMqDestinationTx hash_id input.ial,
                .notifyCreateIdentityResult request_id true secret,
                .removeOnboardData input.reference_id],
             .ok { request_id := request_id, exist := exist,
                   accessor_id := accessor_id })

/-- JS truthiness of a Promise object: always true.  `updateIal` tests
`!checkAssociated(...)` without awaiting the async call, so the negation is
applied to a Promise object, not to the resolved boolean. -/
def unawaitedPromiseTruthy : Bool := true

/-- `updateIal`: the source intends to reject non-associated identities with
`IDENTITY_NOT_FOUND`, but the guard tests the truthiness of the un-awaited
`checkAssociated` Promise, so the branch is never taken; then check
`ial ≤ max_ial` and submit the `UpdateIal` transaction. -/
def updateIal (env : IdentityEnv) (ns identifier : String) (ial : Rat) :
    List IdEffect × Except IdError Unit :=
  if ! unawaitedPromiseTruthy then
    ([], .error .identityNotFound)
  else if ial > env.max_ial then
    ([], .error .maximumIalExceeded)
  else
    ([.updateIalTx (env.hash (ns ++ ":" ++ identifier)) ial], .ok ())

/-! ## RP request creation (createRequest) -/

/-- Environment for the RP `createRequest` flow: the existing
`reference_id → request_id` mapping, the freshly derived request id, and the
ledger `transact('CreateRequest', …)` outcome (success flag and height). -/
structure RpEnv where
  referenceMapping : String → Option String
  newRequestId : String
  transactSuccess : Bool
  transactHeight : Int

/-- Input of `createRequest` (request parameters beyond these fields are
opaque to the control flow). -/
structure RpInput where
  ns : String
  identifier : String
  reference_id : String
  data_request_list : List String
  callback_url : String
deriving DecidableEq, Repr

/-- Side effects of `createRequest`, in program order. -/
inductive RpEffect where
  | putRequestsData (request_id : String)
  | transactCreateRequest (request_id : String)
  | mqSendToIdps (request_id : String) (height : Int)
  | putReferenceMapping (reference_id request_id : String)
  | putCallbackUrl (request_id callback_url : String)
deriving DecidableEq, Repr

/-- Return value of `createRequest`: the mapped request id for a known
`reference_id`, `false` on a rejected ledger transaction, or the new
request id. -/
inductive RpResult where
  | existing (request_id : String)
  | failed
  | created (request_id : String)
deriving DecidableEq, Repr

/-- `createRequest`: return the mapped request id for a known
`reference_id`; otherwise derive a request id, persist the request data
(only when `data_request_list` is non-empty), submit the `CreateRequest`
transaction, and on success fan the payload out to the resolved IdPs and
record the reference and callback-url mappings.  A rejected transaction
returns `false` immediately. -/
def rpCreateRequest (env : RpEnv) (input : RpInput) :
    List RpEffect × RpResult :=
  match env.referenceMapping input.reference_id with
  | some rid => ([], .existing rid)
  | none =>
    let request_id := env.newRequestId
    let effs0 :=
      if input.data_request_list ≠ [] then
        [RpEffect.putRequestsData request_id]
      else []
    let effs1 := effs0 ++ [RpEffect.transactCreateRequest request_id]
    if ! env.transactSuccess then (effs1, .failed)
    else
      (effs1 ++
         [.mqSendToIdps request_id env.transactHeight,
          .putReferenceMapping input.reference_id request_id,
          .putCallbackUrl request_id input.callback_url],
       .created request_id)

/-- Whether an effect belongs to the post-success tail of `createRequest`
(transport fan-out and the two mappings), all of which must be absent when
the ledger rejects the transaction. -/
def RpEffect.isPostSuccess : RpEffect → Bool
  | .mqSendToIdps _ _ => true
  | .putReferenceMapping _ _ => true
  | .putCallbackUrl _ _ => true
  | _ => false

/-! ## Concrete instances used by the closed theorems -/

/-- A consent-request transport message tagged with ledger height 100. -/
def m100 : IdpMessage :=
  { request_id := "r1", height := 100, rp_id := "rp1", idp_id := "idp0" }

/-- The event trace of the replay-gap scenario: the node knows height 99, a
message tagged 100 arrives (buffered), the header for 101 is missed, and
headers for 102, 103, 104 arrive with accurate missing-header counts. -/
def c1Trace : List Ev :=
  [.msg m100, .block 102 (some 1), .block 103 (some 0), .block 104 (some 0)]

/-- The spec's block-replay-window scenario: a message tagged 100 buffered
at ledger height 99, then a header for 102 with missing-header count 1. -/
def c2Trace : List Ev := [.msg m100, .block 102 (some 1)]

/-- A store holding exactly the buffered message `m100`, expected in block
100. -/
def dbW : Db :=
  { emptyDb with
    requestToProcess := setKey emptyDb.requestToProcess "r1" m100,
    expectedInBlock := [(100, "r1")] }

def sW : IdpState := { db := dbW, latestBlockHeight := 100, log := [] }

/-- A challenge-session record for request `r1` with saved blinding
factors. -/
def reqStored : MqRequest := { msg := m100, k := some ["kv1", "kv2"] }

def dbChal : Db :=
  { emptyDb with
    requestReceivedFromMQ := setKey emptyDb.requestReceivedFromMQ "r1" reqStored }

def sChal : IdpState := { db := dbChal, latestBlockHeight := 50, log := [] }

/-- A challenge transport message for `r1` tagged with height 100, above the
node's current height. -/
def mChal : IdpMessage :=
  { request_id := "r1", height := 100, challenge := some ["c1", "c2"],
    idp_id := "idpR" }

/-- A `requestChallenge` environment for the self-challenge scenario. -/
def chalEnvW : ChalEnv :=
  { getAccessorKey := fun _ => some "PK1",
    gen1 := fun _ => ("k1v", "pub1"),
    gen2 := fun _ => ("k2v", "pub2"),
    declareHeight := 120,
    nodeId := "idp0" }

/-- A mode-1 response environment. -/
def respEnv1 : RespEnv :=
  { getRequest := fun _ => some { mode := 1 },
    getAccessorKey := fun _ => none,
    requestFromMq := fun _ => none,
    gen := fun _ _ _ _ => { blockchainProof := "", privateProofValue := "", padding := "" },
    hash := fun s => "H(" ++ s ++ ")",
    jsonList := String.intercalate ",",
    respondHeight := 7,
    rpId := fun _ => some "rp1" }

def respData1 : ResponseData :=
  { request_id := "rq1", aal := "2.1", ial := "2.3", status := "accept",
    signature := "sig1" }

/-- A mode-3 response environment with a stored challenge session. -/
def respEnv3 : RespEnv :=
  { getRequest := fun _ => some { mode := 3 },
    getAccessorKey := fun _ => some "PK3",
    requestFromMq := fun rid =>
      if rid = "rq3" then
        some { msg := { request_id := "rq3" }, k := some ["kk1", "kk2"],
               challenge := some ["ch1", "ch2"] }
      else none,
    gen := fun pk c k secret =>
      { blockchainProof := "B(" ++ pk ++ c ++ ")",
        privateProofValue := "P(" ++ c ++ (k.getD "_") ++ secret ++ ")",
        padding := "pad" },
    hash := fun s => "H(" ++ s ++ ")",
    jsonList := String.intercalate ",",
    respondHeight := 9,
    rpId := fun _ => some "rp1" }

def respData3 : ResponseData :=
  { request_id := "rq3", aal := "3", ial := "2.3", status := "accept",
    signature := "sig3", accessor_id := some "acc3", secret := some "sec3" }

/-- A concrete onboarding-engine environment: node `idp1` with
`max_ial = 3`, valid namespace `citizen_id`, no association, no recorded
correlation. -/
def identityEnvW : IdentityEnv :=
  { namespaceList := ["citizen_id"],
    idpNodeIds := fun _ _ => [],
    nodeId := "idp1",
    max_ial := 3,
    existingIdentity := fun _ => false,
    onboardData := fun _ => none,
    accessorSignUrlSet := true,
    accessorSignResult := "SIG",
    extractPadding := fun _ _ => "PAD",
    randomId := "AID",
    randomGroupId := "AGID",
    newRequestId := "REQ1",
    hash := fun s => "H(" ++ s ++ ")" }

/-- The same environment with a recorded onboard correlation for `ref1`. -/
def identityEnvRetry : IdentityEnv :=
  { identityEnvW with onboardData := fun r =>
      if r = "ref1" then some ("REQ0", "ACC0") else none }

def createInputIal (q : Rat) : CreateIdentityInput :=
  { ns := "citizen_id", identifier := "123", reference_id := "ref1",
    accessor_type := "RSA", accessor_public_key := "PK1", ial := q }

/-- A `createRequest` environment whose `CreateRequest` transaction the
ledger rejects. -/
def rpEnvReject : RpEnv :=
  { referenceMapping := fun _ => none,
    newRequestId := "REQR",
    transactSuccess := false,
    transactHeight := 55 }

def rpInputW : RpInput :=
  { ns := "citizen_id", identifier := "123", reference_id := "refR",
    data_request_list := ["svc1"], callback_url := "http://cb" }

/-! ## Store and dispatch lemmas -/

theorem setKey_self {α : Type} (f : String → Option α) (k : String) (v : α) :
    setKey f k v k = some v := by
  simp [setKey]

theorem setKey_ne {α : Type} (f : String → Option α) (k k' : String) (v : α)
    (h : k' ≠ k) : setKey f k v k' = f k' := by
  simp [setKey, h]

theorem delKey_self {α : Type} (f : String → Option α) (k : String) :
    delKey f k k = none := by
  simp [delKey]

theorem delKey_ne {α : Type} (f : String → Option α) (k k' : String)
    (h : k' ≠ k) : delKey f k k' = f k' := by
  simp [delKey, h]

theorem dispatchMessage_requestId (m : IdpMessage) :
    (dispatchMessage m).requestId = m.request_id := by
  unfold dispatchMessage
  cases m.accessor_id with
  | some a => rfl
  | none =>
    by_cases h : m.msgType = some "request_challenge" <;>
      simp [h, Dispatch.requestId]

theorem dispatchMessage_isProtocol (m : IdpMessage) :
    (dispatchMessage m).isProtocol = true := by
  unfold dispatchMessage
  cases m.accessor_id with
  | some a => rfl
  | none =>
    by_cases h : m.msgType = some "request_challenge" <;>
      simp [h, Dispatch.isProtocol]

theorem protocolDispatchCount_append (rid : String)
    (l1 l2 : List Dispatch) :
    protocolDispatchCount rid (l1 ++ l2) =
      protocolDispatchCount rid l1 + protocolDispatchCount rid l2 := by
  simp [protocolDispatchCount, List.countP_append]

theorem protocolDispatchCount_dispatch_eq (m : IdpMessage) :
    protocolDispatchCount m.request_id [dispatchMessage m] = 1 := by
  simp [protocolDispatchCount, List.countP_cons, dispatchMessage_isProtocol,
    dispatchMessage_requestId]

theorem protocolDispatchCount_dispatch_ne (rid : String) (m : IdpMessage)
    (h : m.request_id ≠ rid) :
    protocolDispatchCount rid [dispatchMessage m] = 0 := by
  simp [protocolDispatchCount, List.countP_cons, dispatchMessage_isProtocol,
    dispatchMessage_requestId, h]

theorem keyInv_delKey {f : String → Option IdpMessage} {k : String}
    (h : KeyInv f) : KeyInv (delKey f k) := by
  intro rid m hm
  by_cases he : rid = k
  · rw [he, delKey_self] at hm
    exact Option.noConfusion hm
  · rw [delKey_ne _ _ _ he] at hm
    exact h rid m hm

theorem keyInv_empty : KeyInv (fun _ => none) := by
  intro rid m hm
  exact Option.noConfusion hm

theorem keyInv_setKey {f : String → Option IdpMessage} {k : String}
    {v : IdpMessage} (h : KeyInv f) (hv : v.request_id = k) :
    KeyInv (setKey f k v) := by
  intro rid m hm
  by_cases he : rid = k
  · rw [he, setKey_self] at hm
    rw [← Option.some.inj hm, hv]
    exact he.symm
  · rw [setKey_ne _ _ _ _ he] at hm
    exact h rid m hm

/-! ## Lemmas about the message handler's store updates -/

theorem receiveStores_requestToProcess_self (db : Db) (m : IdpMessage) :
    (receiveStores db m).requestToProcess m.request_id = some m := by
  unfold receiveStores
  by_cases h : m.msgType = some "request_challenge" <;>
    simp [h, setKey_self]

theorem receiveStores_expectedInBlock (db : Db) (m : IdpMessage) :
    (receiveStores db m).expectedInBlock = db.expectedInBlock := by
  unfold receiveStores
  by_cases h : m.msgType = some "request_challenge" <;> simp [h]

theorem receiveStores_requestReceivedFromMQ_challenge (db : Db)
    (m : IdpMessage) (h : m.msgType = some "request_challenge") :
    (receiveStores db m).requestReceivedFromMQ = db.requestReceivedFromMQ := by
  unfold receiveStores
  simp [h]

theorem bufferStores_expectedInBlock (db : Db) (m : IdpMessage) :
    (bufferStores db m).expectedInBlock =
      db.expectedInBlock ++ [(m.height, m.request_id)] := by
  unfold bufferStores
  by_cases h : m.msgType = some "request_challenge" <;>
    · simp only [h, if_true, if_false, reduceIte]
      split <;> rfl

theorem bufferStores_requestToProcess (db : Db) (m : IdpMessage) :
    (bufferStores db m).requestToProcess = db.requestToProcess := by
  unfold bufferStores
  by_cases h : m.msgType = some "request_challenge" <;>
    · simp only [h, if_true, if_false, reduceIte]
      split <;> rfl

theorem bufferStores_requestReceivedFromMQ (db : Db) (m : IdpMessage) :
    (bufferStores db m).requestReceivedFromMQ = db.requestReceivedFromMQ := by
  unfold bufferStores
  by_cases h : m.msgType = some "request_challenge" <;>
    · simp only [h, if_true, if_false, reduceIte]
      split <;> rfl

/-! ## Lemmas about the replay fold -/

theorem processExpected_expectedInBlock :
    ∀ (L : List String) (db : Db) (log : List Dispatch),
      (processExpected db log L).1.expectedInBlock = db.expectedInBlock := by
  intro L
  induction L with
  | nil => intro db log; rfl
  | cons rid rest ih =>
    intro db log
    simp only [processExpected]
    cases hm : db.requestToProcess rid with
    | none => exact ih db log
    | some m => exact ih _ _

/-- Processing a window in which `rid` has no pending stored message adds no
protocol dispatch of `rid` and leaves its (absent) entry absent. -/
theorem processExpected_untouched :
    ∀ (L : List String) (db : Db) (log : List Dispatch) (rid : String),
      db.requestToProcess rid = none →
      KeyInv db.requestToProcess →
      protocolDispatchCount rid (processExpected db log L).2 =
        protocolDispatchCount rid log ∧
      (processExpected db log L).1.requestToProcess rid = none ∧
      KeyInv (processExpected db log L).1.requestToProcess := by
  intro L
  induction L with
  | nil => intro db log rid h hinv; exact ⟨rfl, h, hinv⟩
  | cons rid' rest ih =>
    intro db log rid h hinv
    simp only [processExpected]
    cases hm : db.requestToProcess rid' with
    | none => exact ih db log rid h hinv
    | some m =>
      have hne : rid ≠ rid' := by
        intro he
        rw [he, hm] at h
        exact Option.noConfusion h
      have hmid : m.request_id = rid' := hinv rid' m hm
      have h2 : (delKey db.requestToProcess rid') rid = none := by
        rw [delKey_ne _ _ _ hne]
        exact h
      have hrec := ih
        { db with requestToProcess := delKey db.requestToProcess rid' }
        (log ++ [dispatchMessage m]) rid h2 (keyInv_delKey hinv)
      refine ⟨?_, hrec.2.1, hrec.2.2⟩
      rw [hrec.1, protocolDispatchCount_append,
        protocolDispatchCount_dispatch_ne rid m (by rw [hmid]; exact hne.symm)]
      omega

/-- Processing a window that mentions the stored message's request id
dispatches it exactly once and removes it from the pending store. -/
theorem processExpected_dispatch_once :
    ∀ (L : List String) (db : Db) (log : List Dispatch) (m : IdpMessage),
      db.requestToProcess m.request_id = some m →
      KeyInv db.requestToProcess →
      m.request_id ∈ L →
      protocolDispatchCount m.request_id (processExpected db log L).2 =
        protocolDispatchCount m.request_id log + 1 ∧
      (processExpected db log L).1.requestToProcess m.request_id = none := by
  intro L
  induction L with
  | nil => intro db log m h hinv hmem; cases hmem
  | cons rid' rest ih =>
    intro db log m h hinv hmem
    simp only [processExpected]
    by_cases he : rid' = m.request_id
    · subst he
      cases hm : db.requestToProcess m.request_id with
      | none =>
        rw [hm] at h
        exact Option.noConfusion h
      | some m' =>
        have hm2 : m' = m := by
          rw [hm] at h
          exact Option.some.inj h
        subst hm2
        have h2 :
            (delKey db.requestToProcess m'.request_id) m'.request_id = none :=
          delKey_self _ _
        have hrec := processExpected_untouched rest
          { db with
            requestToProcess := delKey db.requestToProcess m'.request_id }
          (log ++ [dispatchMessage m']) m'.request_id h2 (keyInv_delKey hinv)
        refine ⟨?_, hrec.2.1⟩
        rw [hrec.1, protocolDispatchCount_append,
          protocolDispatchCount_dispatch_eq m']
    · have hmem' : m.request_id ∈ rest := by
        cases List.mem_cons.1 hmem with
        | inl hh => exact absurd hh.symm he
        | inr hh => exact hh
      cases hm : db.requestToProcess rid' with
      | none => exact ih db log m h hinv hmem'
      | some m' =>
        have hm'id : m'.request_id = rid' := hinv rid' m' hm
        have h2 : (delKey db.requestToProcess rid') m.request_id = some m := by
          rw [delKey_ne _ _ _ (fun hh => he hh.symm)]
          exact h
        have hrec := ih
          { db with requestToProcess := delKey db.requestToProcess rid' }
          (log ++ [dispatchMessage m']) m h2 (keyInv_delKey hinv) hmem'
        refine ⟨?_, hrec.2⟩
        rw [hrec.1, protocolDispatchCount_append,
          protocolDispatchCount_dispatch_ne m.request_id m'
            (by rw [hm'id]; exact he)]

/-! ## Claim C1 -/

/-- C1 (counterexample): the claim "every transport message tagged with
height H is dispatched exactly once after the ledger height strictly
exceeds H" fails on the code.  In the concrete trace `c1Trace` a consent
message tagged 100 is buffered at ledger height 99; the header for 101 is
missed, and the headers for 102 (missing-count 1), 103 and 104 compute
replay windows [101,101], [102,102], [103,103], none of which contains 100
— so although the final ledger height 104 strictly exceeds 100, the message
is dispatched zero times, not exactly once. -/
theorem c1_counterexample :
    m100.height = 100 ∧
    (runEvents (initState 99) c1Trace).latestBlockHeight = 104 ∧
    m100.height < (runEvents (initState 99) c1Trace).latestBlockHeight ∧
    protocolDispatchCount m100.request_id
      (runEvents (initState 99) c1Trace).log = 0 := by
  refine ⟨rfl, rfl, by decide, by decide⟩

/-- C1 (amended): for every transport message M without a challenge field
and tagged with height H: (a) while the current ledger height is ≤ H the
handler dispatches nothing — M is only stored and buffered under
`(H, request_id)`; (b) the first new-block-header event whose replay window
`[fromHeight, height−1]` contains H dispatches M exactly once, at a moment
when the ledger height strictly exceeds H, and removes M from the pending
store; (c) a header event dispatches nothing for a request id with no
pending stored message, so M is never dispatched a second time.  (If no
replay window ever contains H — a gapped header stream, see
`c1_counterexample` — M is never dispatched.) -/
theorem c1_buffer_and_single_replay :
    (∀ (s : IdpState) (m : IdpMessage),
        m.challenge = none →
        s.latestBlockHeight ≤ m.height →
        (handleMessageFromQueue s m).log = s.log ∧
        (m.height, m.request_id) ∈
          (handleMessageFromQueue s m).db.expectedInBlock ∧
        (handleMessageFromQueue s m).db.requestToProcess m.request_id
          = some m) ∧
    (∀ (s : IdpState) (h : Int) (miss : Option Int) (m : IdpMessage),
        s.db.requestToProcess m.request_id = some m →
        KeyInv s.db.requestToProcess →
        (m.height, m.request_id) ∈ s.db.expectedInBlock →
        fromHeightOf h miss ≤ m.height →
        m.height ≤ h - 1 →
        protocolDispatchCount m.request_id
            (handleTendermintNewBlockHeaderEvent s h miss).log =
          protocolDispatchCount m.request_id s.log + 1 ∧
        (handleTendermintNewBlockHeaderEvent s h miss).db.requestToProcess
            m.request_id = none ∧
        m.height <
          (handleTendermintNewBlockHeaderEvent s h miss).latestBlockHeight) ∧
    (∀ (s : IdpState) (h : Int) (miss : Option Int) (rid : String),
        s.db.requestToProcess rid = none →
        KeyInv s.db.requestToProcess →
        protocolDispatchCount rid
            (handleTendermintNewBlockHeaderEvent s h miss).log =
          protocolDispatchCount rid s.log) := by
  refine ⟨?_, ?_, ?_⟩
  · intro s m hc hle
    refine ⟨?_, ?_, ?_⟩
    · simp only [handleMessageFromQueue, hc, hle, if_true]
    · simp only [handleMessageFromQueue, hc, hle, if_true]
      rw [bufferStores_expectedInBlock, receiveStores_expectedInBlock]
      exact List.mem_append.2 (Or.inr (List.mem_singleton.2 rfl))
    · simp only [handleMessageFromQueue, hc, hle, if_true]
      rw [bufferStores_requestToProcess]
      exact receiveStores_requestToProcess_self s.db m
  · intro s h miss m hlook hinv hin hfrom hto
    have hmem : m.request_id ∈ windowRequestIds s.db h miss := by
      unfold windowRequestIds
      refine List.mem_map.2
        ⟨(m.height, m.request_id), List.mem_filter.2 ⟨hin, ?_⟩, rfl⟩
      simp only [inWindow, Bool.and_eq_true, decide_eq_true_eq]
      exact ⟨hfrom, hto⟩
    have hpe := processExpected_dispatch_once (windowRequestIds s.db h miss)
      s.db s.log m hlook hinv hmem
    refine ⟨hpe.1, hpe.2, ?_⟩
    show m.height < h
    omega
  · intro s h miss rid hnone hinv
    exact (processExpected_untouched (windowRequestIds s.db h miss)
      s.db s.log rid hnone hinv).1

/-- C1 (witness): the amended theorem applied at concrete inputs — the
message `m100` buffered at ledger height 99, then replayed exactly once by
the header for 101 (window [100,100]) from the buffered state `sW`, while a
request id with no pending message is not dispatched. -/
theorem c1_buffer_and_single_replay_witness :
    ((handleMessageFromQueue (initState 99) m100).log = [] ∧
     ((100 : Int), "r1") ∈
       (handleMessageFromQueue (initState 99) m100).db.expectedInBlock) ∧
    (protocolDispatchCount "r1"
        (handleTendermintNewBlockHeaderEvent sW 101 (some 0)).log =
      protocolDispatchCount "r1" sW.log + 1 ∧
     (handleTendermintNewBlockHeaderEvent sW 101 (some 0)).db.requestToProcess
        "r1" = none) ∧
    protocolDispatchCount "r2"
        (handleTendermintNewBlockHeaderEvent sW 101 (some 0)).log =
      protocolDispatchCount "r2" sW.log := by
  have ha := c1_buffer_and_single_replay.1 (initState 99) m100 rfl (by decide)
  have hb := c1_buffer_and_single_replay.2.1 sW 101 (some 0) m100 rfl
    (keyInv_setKey keyInv_empty rfl) (by decide) (by decide) (by decide)
  have hc := c1_buffer_and_single_replay.2.2 sW 101 (some 0) "r2" rfl
    (keyInv_setKey keyInv_empty rfl)
  exact ⟨⟨ha.1, ha.2.1⟩, ⟨hb.1, hb.2.1⟩, hc⟩

/-! ## Claim C2 -/

/-- C2: the replay window of a new-block-header event at height `h` with
missing-header count `m` is `[fromHeight, h−1]` with `fromHeight = 1` when
no prior header was ever seen (`m` null), `h−1` when `m = 0`, and `h−m`
otherwise; the event processes and purges exactly the buffered entries in
that window.  In the spec's scenario a message tagged 100 buffered at
ledger height 99 is NOT replayed by the header for 102 with missing-count 1
(window [101,101]): it is dispatched zero times and stays buffered. -/
theorem c2_replay_window :
    (∀ h : Int, fromHeightOf h none = 1) ∧
    (∀ h : Int, fromHeightOf h (some 0) = h - 1) ∧
    (∀ h mm : Int, mm ≠ 0 → fromHeightOf h (some mm) = h - mm) ∧
    (∀ (s : IdpState) (h : Int) (miss : Option Int),
        (handleTendermintNewBlockHeaderEvent s h miss).db.expectedInBlock =
          s.db.expectedInBlock.filter
            (fun p => ! inWindow (fromHeightOf h miss) (h - 1) p)) ∧
    (fromHeightOf 102 (some 1) = 101 ∧
     protocolDispatchCount "r1" (runEvents (initState 99) c2Trace).log = 0 ∧
     ((100 : Int), "r1") ∈
       (runEvents (initState 99) c2Trace).db.expectedInBlock) := by
  refine ⟨fun h => rfl, fun h => by simp [fromHeightOf],
    fun h mm hmm => by simp [fromHeightOf, hmm], ?_, by decide, by decide,
    by decide⟩
  intro s h miss
  simp only [handleTendermintNewBlockHeaderEvent]
  rw [processExpected_expectedInBlock]

/-- C2 (witness): the nonzero missing-count case of the window formula at a
concrete input. -/
theorem c2_replay_window_witness : fromHeightOf 103 (some 2) = 103 - 2 :=
  c2_replay_window.2.2.1 103 2 (by decide)

/-! ## Claim C9 -/

/-- C9: a transport message carrying a `challenge` field is processed
immediately by `handleMessageFromQueue`, whatever its tagged height and the
current ledger height: the challenge pair is stored against the request
record and response creation is triggered, and the message is never
buffered (`expectedInBlock` is untouched, as is the pending-process
store). -/
theorem c9_challenge_immediate :
    ∀ (s : IdpState) (m : IdpMessage) (c : List String) (req : MqRequest),
      m.challenge = some c →
      s.db.requestReceivedFromMQ m.request_id = some req →
      (handleMessageFromQueue s m).log =
        s.log ++ [Dispatch.response m.request_id] ∧
      (handleMessageFromQueue s m).db.expectedInBlock =
        s.db.expectedInBlock ∧
      (handleMessageFromQueue s m).db.requestReceivedFromMQ m.request_id =
        some { req with challenge := some c } ∧
      (handleMessageFromQueue s m).db.requestToProcess =
        s.db.requestToProcess := by
  intro s m c req hc hreq
  refine ⟨?_, ?_, ?_, ?_⟩ <;> simp only [handleMessageFromQueue, hc, hreq]
  exact setKey_self _ _ _

/-- C9 (witness): a challenge for `r1` tagged with height 100 arriving
while the ledger height is only 50 (≤ 100) is still processed at once. -/
theorem c9_challenge_immediate_witness :
    (handleMessageFromQueue sChal mChal).log = [Dispatch.response "r1"] ∧
    (handleMessageFromQueue sChal mChal).db.expectedInBlock = [] ∧
    (handleMessageFromQueue sChal mChal).db.requestReceivedFromMQ "r1" =
      some { reqStored with challenge := some ["c1", "c2"] } ∧
    sChal.latestBlockHeight ≤ mChal.height := by
  have h := c9_challenge_immediate sChal mChal ["c1", "c2"] reqStored rfl rfl
  exact ⟨h.1, h.2.1, h.2.2.1, by decide⟩

/-! ## Claim C10 -/

/-- A `request_challenge` message (which carries no `challenge` field)
leaves the whole `requestReceivedFromMQ` store untouched: the handler skips
`setRequestReceivedFromMQ` for this message type. -/
theorem handleMessage_requestChallenge_preserves_store (s : IdpState)
    (m : IdpMessage) (hc : m.challenge = none)
    (ht : m.msgType = some "request_challenge") :
    (handleMessageFromQueue s m).db.requestReceivedFromMQ =
      s.db.requestReceivedFromMQ := by
  simp only [handleMessageFromQueue, hc]
  by_cases hle : s.latestBlockHeight ≤ m.height
  · simp only [hle, if_true]
    rw [bufferStores_requestReceivedFromMQ,
      receiveStores_requestReceivedFromMQ_challenge _ _ ht]
  · simp only [hle, if_false]
    exact receiveStores_requestReceivedFromMQ_challenge _ _ ht

/-- C10: the `request_challenge` message produced by `requestChallenge`
never overwrites the per-request record in the received-from-MQ store, so
the blinding factors `k` saved by `requestChallenge` (and the prior request
fields) survive even when an IdP adding its own accessor receives the
challenge request from itself. -/
theorem c10_request_challenge_no_overwrite :
    ∀ (env : ChalEnv) (db db' : Db) (rid aid pk : String) (req : MqRequest)
      (outMsg : IdpMessage) (s : IdpState),
      env.getAccessorKey aid = some pk →
      db.requestReceivedFromMQ rid = some req →
      requestChallenge env db rid aid = some (db', outMsg) →
      s.db = db' →
      outMsg.msgType = some "request_challenge" ∧
      outMsg.challenge = none ∧
      (handleMessageFromQueue s outMsg).db.requestReceivedFromMQ =
        s.db.requestReceivedFromMQ ∧
      (handleMessageFromQueue s outMsg).db.requestReceivedFromMQ rid =
        some { req with k := some [(env.gen1 pk).1, (env.gen2 pk).1] } := by
  intro env db db' rid aid pk req outMsg s hkey hreq hrc hs
  simp only [requestChallenge, hkey, hreq, Option.some.injEq, Prod.mk.injEq]
    at hrc
  obtain ⟨hdb, hmsg⟩ := hrc
  have ht : outMsg.msgType = some "request_challenge" := by
    rw [← hmsg]
  have hc : outMsg.challenge = none := by
    rw [← hmsg]
  have hpres := handleMessage_requestChallenge_preserves_store s outMsg hc ht
  refine ⟨ht, hc, hpres, ?_⟩
  rw [hpres, hs, ← hdb]
  exact setKey_self _ _ _

/-- C10 (witness): the theorem at the concrete self-challenge scenario —
`requestChallenge` saves `k = [k1v, k2v]` for `r1`, and handling the
resulting `request_challenge` message preserves that record. -/
theorem c10_request_challenge_no_overwrite_witness :
    ∃ p : Db × IdpMessage,
      requestChallenge chalEnvW dbChal "r1" "acc1" = some p ∧
      (handleMessageFromQueue { db := p.1, latestBlockHeight := 99, log := [] }
          p.2).db.requestReceivedFromMQ "r1" =
        some { reqStored with k := some ["k1v", "k2v"] } := by
  refine ⟨_, rfl, ?_⟩
  exact (c10_request_challenge_no_overwrite chalEnvW dbChal _ "r1" "acc1"
    "PK1" reqStored _ _ rfl rfl rfl rfl).2.2.2

/-! ## Claim C6 -/

/-- C6 (counterexample): the claim "the buffered challenge-session state
and the staged response data are deleted only after the response
transaction is confirmed — not before it is submitted" fails on the code:
in a successful concrete run the first two effects are the two removals and
the ledger submission only comes third, i.e. the deletes happen before the
transaction is even submitted. -/
theorem c6_counterexample :
    (createIdpResponse respEnv1 respData1).2 = .ok () ∧
    (createIdpResponse respEnv1 respData1).1.findIdx?
        RespEffect.isSessionRemoval = some 0 ∧
    (createIdpResponse respEnv1 respData1).1.findIdx?
        RespEffect.isSubmit = some 2 ∧
    (0 : Nat) < 2 := by
  refine ⟨rfl, by decide, by decide, by decide⟩

/-- C6 (amended): in every successful `createIdpResponse` run — mode 1 and
mode 3 alike — the buffered challenge-session record and the staged
response data are deleted immediately BEFORE the response transaction is
submitted: the effect sequence always starts with the two removals followed
by the submission. -/
theorem c6_session_removed_before_submit :
    ∀ (env : RespEnv) (d : ResponseData),
      (createIdpResponse env d).2 = .ok () →
      ∃ txOpt rest,
        (createIdpResponse env d).1 =
          RespEffect.removeRequestReceivedFromMQ d.request_id ::
          RespEffect.removeResponseFromRequestId d.request_id ::
          RespEffect.submitResponseTx txOpt :: rest := by
  intro env d hok
  rcases hreq : env.getRequest d.request_id with _ | request
  · simp only [createIdpResponse, hreq] at hok
    exact Except.noConfusion hok
  · by_cases h3 : request.mode = 3
    · rcases haid : d.accessor_id with _ | aid
      · simp only [createIdpResponse, hreq, h3, haid] at hok
        exact Except.noConfusion hok
      · rcases hsec : d.secret with _ | secret
        · simp only [createIdpResponse, hreq, h3, haid, hsec] at hok
          exact Except.noConfusion hok
        · rcases hkey : env.getAccessorKey aid with _ | pk
          · simp only [createIdpResponse, hreq, h3, haid, hsec, hkey] at hok
            exact Except.noConfusion hok
          · rcases hmq : env.requestFromMq d.request_id with _ | stored
            · simp only [createIdpResponse, hreq, h3, haid, hsec, hkey,
                hmq] at hok
              exact Except.noConfusion hok
            · rcases hch : stored.challenge with _ | cs
              · simp only [createIdpResponse, hreq, h3, haid, hsec, hkey,
                  hmq, hch] at hok
                exact Except.noConfusion hok
              · refine
                  ⟨some (mode3DataToBlockchain env.hash env.jsonList d
                      ((proofRounds env.gen pk secret cs (stored.k.getD [])).map
                        (·.blockchainProof))
                      ((proofRounds env.gen pk secret cs (stored.k.getD [])).map
                        (·.privateProofValue))),
                    sendPrivateProofToRP env d.request_id
                      (some { privateProofValueArray :=
                                (proofRounds env.gen pk secret cs
                                  (stored.k.getD [])).map (·.privateProofValue),
                              accessor_id := aid,
                              padding := ((proofRounds env.gen pk secret cs
                                (stored.k.getD [])).getLast?).map (·.padding) })
                      env.respondHeight, ?_⟩
                simp [createIdpResponse, hreq, h3, haid, hsec, hkey, hmq, hch]
    · refine
        ⟨(if request.mode = 1 then
            some { request_id := d.request_id, aal := d.aal, ial := d.ial,
                   status := d.status, signature := d.signature,
                   identity_proof := none, private_proof_hash := none }
          else none),
          sendPrivateProofToRP env d.request_id none env.respondHeight, ?_⟩
      simp [createIdpResponse, hreq, h3]

/-- C6 (witness): the amended theorem at the concrete mode-1 run. -/
theorem c6_session_removed_before_submit_witness :
    ∃ txOpt rest,
      (createIdpResponse respEnv1 respData1).1 =
        RespEffect.removeRequestReceivedFromMQ "rq1" ::
        RespEffect.removeResponseFromRequestId "rq1" ::
        RespEffect.submitResponseTx txOpt :: rest :=
  c6_session_removed_before_submit respEnv1 respData1 rfl

/-! ## Claim C3 -/

/-- C3: a mode-3 response never puts private proof values on the ledger.
(1) The `dataToBlockchain` object depends on the private-proof-value array
only through `hash(json(privateProofValueArray))`: two runs whose private
arrays hash alike submit identical ledger transactions.  (2) In every
mode-3 run the ledger submission is exactly `mode3DataToBlockchain` (the
blockchain-proof array plus the private-proof hash), while the private
proof values themselves — with `accessor_id` and `padding` — travel only in
the message-queue payload to the RP. -/
theorem c3_ledger_never_sees_private_proof :
    (∀ (hash : String → String) (jsonList : List String → String)
        (d : ResponseData) (bArr pArr pArr' : List String),
        hash (jsonList pArr) = hash (jsonList pArr') →
        mode3DataToBlockchain hash jsonList d bArr pArr =
          mode3DataToBlockchain hash jsonList d bArr pArr') ∧
    (∀ (env : RespEnv) (d : ResponseData) (request : LedgerRequest)
        (aid secret pk : String) (stored : MqRequest) (cs : List String),
        env.getRequest d.request_id = some request →
        request.mode = 3 →
        d.accessor_id = some aid →
        d.secret = some secret →
        env.getAccessorKey aid = some pk →
        env.requestFromMq d.request_id = some stored →
        stored.challenge = some cs →
        (createIdpResponse env d).1 =
          [RespEffect.removeRequestReceivedFromMQ d.request_id,
           RespEffect.removeResponseFromRequestId d.request_id,
           RespEffect.submitResponseTx (some (mode3DataToBlockchain env.hash
             env.jsonList d
             ((proofRounds env.gen pk secret cs (stored.k.getD [])).map
               (·.blockchainProof))
             ((proofRounds env.gen pk secret cs (stored.k.getD [])).map
               (·.privateProofValue))))] ++
          sendPrivateProofToRP env d.request_id
            (some { privateProofValueArray :=
                      (proofRounds env.gen pk secret cs (stored.k.getD [])).map
                        (·.privateProofValue),
                    accessor_id := aid,
                    padding := ((proofRounds env.gen pk secret cs
                      (stored.k.getD [])).getLast?).map (·.padding) })
            env.respondHeight) := by
  constructor
  · intro hash jsonList d bArr pArr pArr' hh
    unfold mode3DataToBlockchain
    rw [hh]
  · intro env d request aid secret pk stored cs hreq h3 haid hsec hkey hmq hch
    simp [createIdpResponse, hreq, h3, haid, hsec, hkey, hmq, hch]

/-- C3 (witness): the theorem at concrete inputs — two different private
arrays under a constant hash give the same ledger transaction, and the
concrete mode-3 run submits exactly the commitment transaction while the
private values go to the transport payload. -/
theorem c3_ledger_never_sees_private_proof_witness :
    (mode3DataToBlockchain (fun _ => "HH") (String.intercalate ",")
        respData1 ["b1"] ["p1"] =
      mode3DataToBlockchain (fun _ => "HH") (String.intercalate ",")
        respData1 ["b1"] ["p2"]) ∧
    (createIdpResponse respEnv3 respData3).1 =
      [RespEffect.removeRequestReceivedFromMQ "rq3",
       RespEffect.removeResponseFromRequestId "rq3",
       RespEffect.submitResponseTx (some (mode3DataToBlockchain respEnv3.hash
         respEnv3.jsonList respData3
         ((proofRounds respEnv3.gen "PK3" "sec3" ["ch1", "ch2"]
             ["kk1", "kk2"]).map (·.blockchainProof))
         ((proofRounds respEnv3.gen "PK3" "sec3" ["ch1", "ch2"]
             ["kk1", "kk2"]).map (·.privateProofValue))))] ++
      sendPrivateProofToRP respEnv3 "rq3"
        (some { privateProofValueArray :=
                  (proofRounds respEnv3.gen "PK3" "sec3" ["ch1", "ch2"]
                    ["kk1", "kk2"]).map (·.privateProofValue),
                accessor_id := "acc3",
                padding := ((proofRounds respEnv3.gen "PK3" "sec3"
                  ["ch1", "ch2"] ["kk1", "kk2"]).getLast?).map (·.padding) })
        respEnv3.respondHeight := by
  constructor
  · exact c3_ledger_never_sees_private_proof.1 (fun _ => "HH")
      (String.intercalate ",") respData1 ["b1"] ["p1"] ["p2"] rfl
  · exact c3_ledger_never_sees_private_proof.2 respEnv3 respData3
      { mode := 3 } "acc3" "sec3" "PK3"
      { msg := { request_id := "rq3" }, k := some ["kk1", "kk2"],
        challenge := some ["ch1", "ch2"] }
      ["ch1", "ch2"] rfl rfl rfl rfl rfl rfl rfl

/-! ## Claim C4 -/

/-- C4: when `reference_id` already has a recorded onboard correlation
(and the call passes the preceding validations, as the original call did),
`createNewIdentity` returns exactly the recorded `{request_id,
accessor_id}` pair and performs no effect at all — in particular it submits
no second `CreateRequest` ledger transaction. -/
theorem c4_onboard_retry_idempotent :
    ∀ (env : IdentityEnv) (input : CreateIdentityInput) (rid aid : String),
      env.onboardData input.reference_id = some (rid, aid) →
      env.namespaceList.contains input.ns = true →
      (input.addAccessor = true ∨
        checkAssociated env input.ns input.identifier = false) →
      input.ial ≤ env.max_ial →
      createNewIdentity env input =
        ([], .ok { request_id := rid,
                   exist := env.existingIdentity
                     (env.hash (input.ns ++ ":" ++ input.identifier)),
                   accessor_id := aid }) := by
  intro env input rid aid hob hns hassoc hial
  have hia : ¬ (input.ial > env.max_ial) := not_lt.2 hial
  have hmem : input.ns ∈ env.namespaceList := by simpa using hns
  rcases hassoc with ha | ha <;>
    simp [createNewIdentity, hns, hmem, ha, hia, hob]

/-- C4 (witness): the retry with `ref1` already mapped to
`(REQ0, ACC0)` returns that pair with an empty effect list. -/
theorem c4_onboard_retry_idempotent_witness :
    createNewIdentity identityEnvRetry (createInputIal 2) =
      ([], .ok { request_id := "REQ0", exist := false,
                 accessor_id := "ACC0" }) :=
  c4_onboard_retry_idempotent identityEnvRetry (createInputIal 2)
    "REQ0" "ACC0" rfl rfl (Or.inr rfl) (show (2 : Rat) ≤ 3 by norm_num)

/-! ## Claim C7 -/

/-- C7: for both `createNewIdentity` and `updateIal`, a requested `ial`
exactly equal to the node's `max_ial` passes the validation (the result is
never `MaximumIalExceeded`; `updateIal` succeeds outright), while any `ial`
strictly greater than `max_ial` fails with `MaximumIalExceeded` and an
empty effect list — no ledger transaction. -/
theorem c7_max_ial_boundary :
    (∀ (env : IdentityEnv) (input : CreateIdentityInput),
        input.ial = env.max_ial →
        (createNewIdentity env input).2 ≠ .error .maximumIalExceeded) ∧
    (∀ (env : IdentityEnv) (input : CreateIdentityInput),
        env.namespaceList.contains input.ns = true →
        (input.addAccessor = true ∨
          checkAssociated env input.ns input.identifier = false) →
        input.ial > env.max_ial →
        createNewIdentity env input = ([], .error .maximumIalExceeded)) ∧
    (∀ (env : IdentityEnv) (ns identifier : String) (ial : Rat),
        ial = env.max_ial →
        updateIal env ns identifier ial =
          ([.updateIalTx (env.hash (ns ++ ":" ++ identifier)) ial], .ok ())) ∧
    (∀ (env : IdentityEnv) (ns identifier : String) (ial : Rat),
        ial > env.max_ial →
        updateIal env ns identifier ial =
          ([], .error .maximumIalExceeded)) := by
  refine ⟨?_, ?_, ?_, ?_⟩
  · intro env input hial
    have hi : ¬ (input.ial > env.max_ial) := by
      rw [hial]
      exact lt_irrefl _
    unfold createNewIdentity
    cases h1 : env.namespaceList.contains input.ns with
    | false => simp [h1]
    | true =>
      cases ha : input.addAccessor <;>
        cases hc : checkAssociated env input.ns input.identifier <;>
          cases hob : env.onboardData input.reference_id <;>
            cases h4 : env.accessorSignUrlSet <;>
              cases h5 : env.existingIdentity
                  (env.hash (input.ns ++ ":" ++ input.identifier)) <;>
                simp [h1, ha, hc, hi, hob, h4, h5]
  · intro env input hns hassoc hial
    have hmem : input.ns ∈ env.namespaceList := by simpa using hns
    rcases hassoc with ha | ha <;>
      simp [createNewIdentity, hns, hmem, ha, hial]
  · intro env ns identifier ial hial
    have hi : ¬ (ial > env.max_ial) := by
      rw [hial]
      exact lt_irrefl _
    simp [updateIal, unawaitedPromiseTruthy, hi]
  · intro env ns identifier ial hial
    simp [updateIal, unawaitedPromiseTruthy, hial]

/-- C7 (witness): the boundary at a node with `max_ial = 3`: `ial = 3`
passes both operations, `ial = 5` fails both with `MaximumIalExceeded` and
no effects. -/
theorem c7_max_ial_boundary_witness :
    (createNewIdentity identityEnvW (createInputIal 3)).2 ≠
      .error .maximumIalExceeded ∧
    createNewIdentity identityEnvW (createInputIal 5) =
      ([], .error .maximumIalExceeded) ∧
    updateIal identityEnvW "citizen_id" "123" 3 =
      ([.updateIalTx (identityEnvW.hash "citizen_id:123") 3], .ok ()) ∧
    updateIal identityEnvW "citizen_id" "123" 5 =
      ([], .error .maximumIalExceeded) := by
  refine ⟨c7_max_ial_boundary.1 identityEnvW (createInputIal 3) rfl,
    c7_max_ial_boundary.2.1 identityEnvW (createInputIal 5) rfl (Or.inr rfl)
      (show (5 : Rat) > 3 by norm_num),
    c7_max_ial_boundary.2.2.1 identityEnvW "citizen_id" "123" 3 rfl,
    c7_max_ial_boundary.2.2.2 identityEnvW "citizen_id" "123" 5
      (show (5 : Rat) > 3 by norm_num)⟩

/-! ## Claim C5 -/

/-- C5: the code does NOT behave as the claim demands.  `updateIal` on an
identity that is not associated with this node (here:
`checkAssociated = false`) does not fail with `IdentityNotFound` and does
not stop: because the source negates the un-awaited `checkAssociated`
Promise — which is always truthy — the guard is dead, so the call proceeds
to the `max_ial` check and submits the `UpdateIal` ledger transaction. -/
theorem c5_update_ial_missing_await :
    ∀ (env : IdentityEnv) (ns identifier : String) (ial : Rat),
      checkAssociated env ns identifier = false →
      ial ≤ env.max_ial →
      updateIal env ns identifier ial =
        ([.updateIalTx (env.hash (ns ++ ":" ++ identifier)) ial], .ok ()) := by
  intro env ns identifier ial hassoc hial
  have hi : ¬ (ial > env.max_ial) := not_lt.2 hial
  simp [updateIal, unawaitedPromiseTruthy, hi]

/-- C5 (witness): the failing input — node `idp1` is not associated with
`citizen_id:123`, yet `updateIal` with `ial = 2` submits the transaction
and succeeds. -/
theorem c5_update_ial_missing_await_witness :
    checkAssociated identityEnvW "citizen_id" "123" = false ∧
    updateIal identityEnvW "citizen_id" "123" 2 =
      ([.updateIalTx (identityEnvW.hash "citizen_id:123") 2], .ok ()) := by
  refine ⟨rfl, ?_⟩
  exact c5_update_ial_missing_await identityEnvW "citizen_id" "123" 2 rfl
    (show (2 : Rat) ≤ 3 by norm_num)

/-! ## Claim C8 -/

/-- C8: when the `CreateRequest` ledger transaction is rejected,
`createRequest` returns the failure value and stops: the
`reference_id → request_id` mapping and the callback-url mapping are not
written and no transport fan-out to IdPs occurs (the only possible effects
are the pre-transaction `requestsData` write and the transaction attempt
itself). -/
theorem c8_ledger_reject_aborts :
    ∀ (env : RpEnv) (input : RpInput),
      env.referenceMapping input.reference_id = none →
      env.transactSuccess = false →
      (rpCreateRequest env input).2 = .failed ∧
      (rpCreateRequest env input).1.all (fun e => ! e.isPostSuccess)
        = true := by
  intro env input hmap hsucc
  refine ⟨?_, ?_⟩ <;>
    rcases hd : input.data_request_list with _ | ⟨a, l⟩ <;>
      simp [rpCreateRequest, hmap, hsucc, hd, RpEffect.isPostSuccess]

/-- C8 (witness): a concrete rejected run — result `failed`, and no
mapping writes or fan-out among the effects. -/
theorem c8_ledger_reject_aborts_witness :
    (rpCreateRequest rpEnvReject rpInputW).2 = .failed ∧
    (rpCreateRequest rpEnvReject rpInputW).1.all
        (fun e => ! e.isPostSuccess) = true :=
  c8_ledger_reject_aborts rpEnvReject rpInputW rfl rfl
